import Mathlib

/-!
Verification of the Heimer workflow core: shallow embedding of
`src/application.cpp` (CLI parsing and the Driver `Application::runState`
with its effect helpers) and of the Mediator/Document/undo layer declared
in `src/mediator.hpp`.  The state-machine transition table and the
Mediator implementation are not part of the two given source files, so
those definitions are modelled from the specification and are marked as
such in their doc comments.
-/

namespace Heimer

/-! ## CLI argument parsing (`Application::parseArgs`, application.cpp lines 74-98)

The C++ loop walks indices `i = 1 .. argc-1` over `args`:
  * `args[i] == "-h" || args[i] == "--help"`: print help, throw `UserException`;
  * `args[i] == "--lang" && (i + i) < args.size()`: `lang = args[i+1]; i++`
    (note the source really compares `i + i`, not `i + 1`);
  * otherwise `m_mindMapFile = args[i]`.
`lang` and `m_mindMapFile` start out as empty strings.

We embed the loop structurally over the remaining suffix of the argument
list, carrying the absolute index `i` and the total length `n`, so that
`rest = args.drop i` and the head of `rest` is `args[i]`. -/

/-- The `UserException("Exit due to help.")` thrown after `printHelp()`:
the only exception parseArgs can raise, and the usage text has been
printed before it is thrown. -/
inductive CliExit where
  | helpShown
deriving DecidableEq

/-- One token is a help switch. -/
def isHelpTok (a : String) : Prop := a = "-h" ∨ a = "--help"

instance (a : String) : Decidable (isHelpTok a) := by
  unfold isHelpTok; infer_instance

/-- Loop body of `Application::parseArgs`, embedded structurally on the
suffix `rest = args.drop i` (with `n = args.size`).  Faithful to the
source, including the `(i + i) < args.size()` bound guarding the
consumption of the `--lang` value.  The inner `[]` case of the `--lang`
branch is unreachable for `1 ≤ i` (then `i + i < n` forces `i + 1 < n`). -/
def argScan : List String → Nat → Nat → String → String → Except CliExit (String × String)
  | [], _, _, lang, file => Except.ok (lang, file)
  | a :: rest, n, i, lang, file =>
    if isHelpTok a then Except.error CliExit.helpShown
    else if a = "--lang" ∧ i + i < n then
      match rest with
      | [] => Except.ok (lang, file)
      | b :: rest2 => argScan rest2 n (i + 2) b file
    else argScan rest n (i + 1) lang a

/-- `Application::parseArgs` on the whole argument vector (`argv[0]` is
the program name and is skipped: the loop starts at `i = 1`).  Returns
`(lang, m_mindMapFile)` on normal completion. -/
def parseArgs (argv : List String) : Except CliExit (String × String) :=
  argScan (argv.drop 1) argv.length 1 "" ""

/-- The tokens the scan of `Application::parseArgs` assigns to
`m_mindMapFile` (the `else` branch of the loop), in scan order; the scan
stops where the source throws for `-h`/`--help`. -/
def argFileToks : List String → Nat → Nat → List String
  | [], _, _ => []
  | a :: rest, n, i =>
    if isHelpTok a then []
    else if a = "--lang" ∧ i + i < n then
      match rest with
      | [] => []
      | _ :: rest2 => argFileToks rest2 n (i + 2)
    else a :: argFileToks rest n (i + 1)

/-- The positional (mind-map file) tokens of an argument vector, as the
source's scan classifies them. -/
def positionalArgs (argv : List String) : List String :=
  argFileToks (argv.drop 1) argv.length 1

example : parseArgs ["heimer", "--lang", "fi"] = Except.ok ("fi", "") := by rfl
example : parseArgs ["heimer", "map.alz"] = Except.ok ("", "map.alz") := by rfl
example : parseArgs ["heimer", "a", "b", "--lang", "fi"] = Except.ok ("", "fi") := by rfl
example : parseArgs ["heimer", "--lang", "-h"] = Except.ok ("-h", "") := by rfl
example : parseArgs ["heimer", "-h"] = Except.error CliExit.helpShown := by rfl
example : positionalArgs ["heimer", "a", "b", "--lang", "fi"] = ["a", "b", "--lang", "fi"] := by rfl

/-! ## Workflow state machine

`StateMachine::Action` and `StateMachine::State` as used by
`Application::runState` and the `emit actionTriggered(...)` calls of
application.cpp; the closed sets are those of the specification (§3). -/

/-- Workflow actions (spec §3; the subset emitted in application.cpp is
MindMapOpened, MindMapSaved, MindMapSaveFailed, MindMapSavedAs,
MindMapSaveAsFailed, BackgroundColorChanged, ExportedToPNG and the three
NotSavedDialog resolutions). -/
inductive Action where
  | NewMindMap
  | MindMapOpened
  | MindMapSaved
  | MindMapSaveFailed
  | MindMapSavedAs
  | MindMapSaveAsFailed
  | BackgroundColorChanged
  | ExportedToPNG
  | NotSavedDialogAccepted
  | NotSavedDialogDiscarded
  | NotSavedDialogCanceled
  | RequestOpen
  | RequestSave
  | RequestSaveAs
  | RequestExport
  | RequestBackgroundColor
  | RequestClose
  | RequestNew
deriving DecidableEq

/-- Workflow states (spec §3; exactly the cases of the `switch` in
`Application::runState`). -/
inductive State where
  | Edit
  | InitializeNewMindMap
  | SaveMindMap
  | ShowOpenDialog
  | ShowSaveAsDialog
  | ShowBackgroundColorDialog
  | ShowExportToPNGDialog
  | ShowNotSavedDialog
  | TryCloseWindow
  | Exit
deriving DecidableEq

/-- Modelled from the spec: the pending operation stored on entry to
ShowNotSavedDialog (spec §4.1 and §9; statemachine.cpp is not among the
given sources). -/
inductive PendingOp where
  | opNew
  | opOpen
  | opClose
deriving DecidableEq

/-- Modelled from the spec: guard snapshot `{isModified, hasNodes,
hasPendingFile}` consulted by the transition rules (spec §4.1). -/
structure Guards where
  isModified : Bool
  hasNodes : Bool
  hasPendingFile : Bool
deriving DecidableEq

/-- Modelled from the spec: the machine's own state, the current workflow
State plus the pending-operation slot (spec §4.1, §9). -/
structure SMState where
  state : State
  pending : Option PendingOp
deriving DecidableEq

/-- Modelled from the spec: resuming the pending operation
(NotSavedDialogDiscarded, or a successful save in the middle of
new/open/close; spec §4.1). -/
def resume : Option PendingOp → SMState
  | some PendingOp.opNew => ⟨State.InitializeNewMindMap, none⟩
  | some PendingOp.opOpen => ⟨State.ShowOpenDialog, none⟩
  | some PendingOp.opClose => ⟨State.TryCloseWindow, none⟩
  | none => ⟨State.Edit, none⟩

/-- Modelled from the spec: the pure transition function of
`StateMachine::calculateState` (spec §4.1: key rows plus "default/unlisted
transitions return to Edit"; statemachine.cpp is not among the given
sources). -/
def transition (sm : SMState) (a : Action) (g : Guards) : SMState :=
  match a with
  | Action.RequestNew =>
      if g.isModified then ⟨State.ShowNotSavedDialog, some PendingOp.opNew⟩
      else ⟨State.InitializeNewMindMap, none⟩
  | Action.RequestOpen =>
      if g.isModified then ⟨State.ShowNotSavedDialog, some PendingOp.opOpen⟩
      else ⟨State.ShowOpenDialog, none⟩
  | Action.RequestClose =>
      if g.isModified then ⟨State.ShowNotSavedDialog, some PendingOp.opClose⟩
      else ⟨State.TryCloseWindow, none⟩
  | Action.RequestSave => ⟨State.SaveMindMap, sm.pending⟩
  | Action.RequestSaveAs => ⟨State.ShowSaveAsDialog, sm.pending⟩
  | Action.RequestExport => ⟨State.ShowExportToPNGDialog, sm.pending⟩
  | Action.RequestBackgroundColor => ⟨State.ShowBackgroundColorDialog, sm.pending⟩
  | Action.NotSavedDialogAccepted => ⟨State.SaveMindMap, sm.pending⟩
  | Action.NotSavedDialogDiscarded => resume sm.pending
  | Action.NotSavedDialogCanceled => ⟨State.Edit, none⟩
  | Action.MindMapSaved => resume sm.pending
  | Action.MindMapSavedAs => resume sm.pending
  | Action.MindMapOpened => ⟨State.Edit, none⟩
  | Action.BackgroundColorChanged => ⟨State.Edit, none⟩
  | Action.ExportedToPNG => ⟨State.Edit, none⟩
  | Action.MindMapSaveFailed => ⟨State.Edit, none⟩
  | Action.MindMapSaveAsFailed => ⟨State.Edit, none⟩
  | Action.NewMindMap => ⟨State.Edit, none⟩

/-! ## The Driver (`Application::runState` and its helpers)

The Qt dialog calls and the boolean results of the Mediator calls are the
Driver's only inputs; we package one interaction's worth of them into an
environment record.  File names are QStrings, modelled as `List Char`
(`QString::isEmpty` is `= []`, `QString::endsWith` is suffix testing).
The output records the `emit actionTriggered(...)` calls, the message
boxes shown, the `QApplication::exit` call if any, the
`m_mainWindow->close()` call, and the file-name arguments handed to
`Mediator::saveMindMapAs` / `Mediator::openMindMap`. -/

/-- Result of the QMessageBox in `Application::showNotSavedDialog`:
Save / Discard / Cancel. -/
inductive NotSavedChoice where
  | save
  | discard
  | cancel
deriving DecidableEq

/-- The message boxes `Application` shows via `showMessageBox`. -/
inductive MsgKind where
  | saveFailedText
  | saveAsFailedText
deriving DecidableEq

/-- The Driver's external inputs for one `runState` call: dialog results
and Mediator call outcomes. -/
structure DriverEnv where
  openFileName : List Char
  saveAsFileName : List Char
  colorValid : Bool
  notSavedChoice : NotSavedChoice
  mediatorSaveOk : Bool
  mediatorSaveAsOk : Bool
  mediatorOpenOk : Bool
deriving DecidableEq

/-- Observable effects of one `runState` call: actions emitted back to
the state machine, message boxes shown, process-exit status if
`QApplication::exit` ran, whether `m_mainWindow->close()` ran, and the
file names passed into `Mediator::saveMindMapAs` / `Mediator::openMindMap`
(none when the Mediator call was not made). -/
structure Effects where
  actions : List Action
  messages : List MsgKind
  exitCode : Option Nat
  windowClosed : Bool
  saveAsArg : Option (List Char)
  openArg : Option (List Char)
deriving DecidableEq

/-- No observable effect. -/
def Effects.none : Effects := ⟨[], [], Option.none, false, Option.none, Option.none⟩

/-- Emit a single action and nothing else. -/
def Effects.emit (a : Action) : Effects := ⟨[a], [], Option.none, false, Option.none, Option.none⟩

/-- `Config::FILE_EXTENSION` (config.hpp is not among the given sources;
the spec fixes only that the extension is a single fixed string, and the
claims do not depend on its value). -/
def FILE_EXTENSION : List Char := ['.', 'a', 'l', 'z']

/-- `QString::endsWith`. -/
def qEndsWith (s suffixChars : List Char) : Bool := suffixChars.isSuffixOf s

/-- The extension fix-up of `Application::saveMindMapAs`:
`if (!fileName.endsWith(FILE_EXTENSION)) fileName += FILE_EXTENSION;`. -/
def ensureExt (fileName : List Char) : List Char :=
  if qEndsWith fileName FILE_EXTENSION then fileName else fileName ++ FILE_EXTENSION

/-- `Application::saveMindMap` (lines 247-262): ask the Mediator to save;
on failure show a message box and emit MindMapSaveFailed, on success emit
MindMapSaved. -/
def appSaveMindMap (env : DriverEnv) : Effects :=
  if env.mediatorSaveOk then Effects.emit Action.MindMapSaved
  else ⟨[Action.MindMapSaveFailed], [MsgKind.saveFailedText], Option.none, false, Option.none, Option.none⟩

/-- `Application::saveMindMapAs` (lines 265-298): run the save-file
dialog; if the returned name is empty, return without emitting anything;
otherwise append the file extension when missing and call
`Mediator::saveMindMapAs`, emitting MindMapSavedAs on success and showing
a message box and emitting MindMapSaveAsFailed on failure. -/
def appSaveMindMapAs (env : DriverEnv) : Effects :=
  if env.saveAsFileName = [] then Effects.none
  else
    let fn := ensureExt env.saveAsFileName
    if env.mediatorSaveAsOk then
      ⟨[Action.MindMapSavedAs], [], Option.none, false, some fn, Option.none⟩
    else
      ⟨[Action.MindMapSaveAsFailed], [MsgKind.saveAsFailedText], Option.none, false, some fn, Option.none⟩

/-- `Application::openMindMap` + `Application::doOpenMindMap` (lines
219-245): run the open-file dialog; on an empty name do nothing;
otherwise call `Mediator::openMindMap` and emit MindMapOpened only when
it succeeds (a failed open emits nothing). -/
def appOpenMindMap (env : DriverEnv) : Effects :=
  if env.openFileName = [] then Effects.none
  else if env.mediatorOpenOk then
    ⟨[Action.MindMapOpened], [], Option.none, false, Option.none, some env.openFileName⟩
  else ⟨[], [], Option.none, false, Option.none, some env.openFileName⟩

/-- `Application::showBackgroundColorDialog` (lines 308-315): run the
color dialog, apply the color only when valid, and emit
BackgroundColorChanged unconditionally. -/
def appShowBackgroundColorDialog (_env : DriverEnv) : Effects :=
  Effects.emit Action.BackgroundColorChanged

/-- `Application::showExportToPNGDialog` (lines 317-324): run the export
dialog and emit ExportedToPNG unconditionally ("Doesn't matter if
canceled or not"). -/
def appShowExportToPNGDialog (_env : DriverEnv) : Effects :=
  Effects.emit Action.ExportedToPNG

/-- The ShowNotSavedDialog branch of `Application::runState`: map the
QMessageBox result 1:1 onto the three NotSavedDialog actions. -/
def appShowNotSavedDialog (env : DriverEnv) : Effects :=
  match env.notSavedChoice with
  | NotSavedChoice.save => Effects.emit Action.NotSavedDialogAccepted
  | NotSavedChoice.discard => Effects.emit Action.NotSavedDialogDiscarded
  | NotSavedChoice.cancel => Effects.emit Action.NotSavedDialogCanceled

/-- `Application::runState` (lines 163-212), as the observable effects of
one call per State.  `EXIT_SUCCESS = 0`. -/
def runState (env : DriverEnv) : State → Effects
  | State.TryCloseWindow => ⟨[], [], Option.none, true, Option.none, Option.none⟩
  | State.Exit => ⟨[], [], some 0, false, Option.none, Option.none⟩
  | State.Edit => Effects.none
  | State.InitializeNewMindMap => Effects.none
  | State.SaveMindMap => appSaveMindMap env
  | State.ShowBackgroundColorDialog => appShowBackgroundColorDialog env
  | State.ShowExportToPNGDialog => appShowExportToPNGDialog env
  | State.ShowNotSavedDialog => appShowNotSavedDialog env
  | State.ShowSaveAsDialog => appSaveMindMapAs env
  | State.ShowOpenDialog => appOpenMindMap env

/-! ## Mediator, Document and undo history

`src/mediator.hpp` declares the operations; their bodies (mediator.cpp /
EditorData) are not among the given sources, so the definitions below are
modelled from the specification (§3 Document/UndoEngine/Selection, §4.2
operation contracts) and carry `Modelled from the spec:` doc comments. -/

/-- Modelled from the spec: the Document of §3 — node/edge graph,
background color, optional file path, modified flag (mediator.cpp and the
EditorData implementation are not among the given sources).  Nodes are
stable ids; an edge references two node ids. -/
structure Document where
  nodes : List Nat
  edges : List (Nat × Nat)
  bgColor : Nat
  filePath : Option (List Char)
  isModified : Bool
deriving DecidableEq

/-- An edge references the node id. -/
def edgeTouches (id : Nat) (e : Nat × Nat) : Bool := e.1 == id || e.2 == id

/-- Modelled from the spec: reversible edit commands of the UndoEngine
(§3, §4.2).  A delete command records the cascaded edges it removed so it
can be undone. -/
inductive Cmd where
  | addNode (id : Nat) (src : Option Nat)
  | delNode (id : Nat) (removedEdges : List (Nat × Nat))
  | setBg (oldColor newColor : Nat)
deriving DecidableEq

/-- Modelled from the spec: forward effect of a command on the Document;
every graph-mutating command sets the modified flag (§3 invariant). -/
def applyCmd : Cmd → Document → Document
  | Cmd.addNode id src, d =>
      ⟨id :: d.nodes,
       (match src with
        | some s => (s, id) :: d.edges
        | none => d.edges),
       d.bgColor, d.filePath, true⟩
  | Cmd.delNode id _, d =>
      ⟨d.nodes.erase id, d.edges.filter (fun e => !edgeTouches id e), d.bgColor, d.filePath, true⟩
  | Cmd.setBg _ newColor, d =>
      ⟨d.nodes, d.edges, newColor, d.filePath, true⟩

/-- Modelled from the spec: inverse effect of a command on the Document. -/
def unapplyCmd : Cmd → Document → Document
  | Cmd.addNode id src, d =>
      ⟨d.nodes.erase id,
       (match src with
        | some s => d.edges.erase (s, id)
        | none => d.edges),
       d.bgColor, d.filePath, true⟩
  | Cmd.delNode id removedEdges, d =>
      ⟨id :: d.nodes, removedEdges ++ d.edges, d.bgColor, d.filePath, true⟩
  | Cmd.setBg oldColor _, d =>
      ⟨d.nodes, d.edges, oldColor, d.filePath, true⟩

/-- Modelled from the spec: Mediator-owned state — the Document, the two
UndoEngine stacks, and the at-most-one selected node (§3). -/
structure MediatorState where
  doc : Document
  undoStack : List Cmd
  redoStack : List Cmd
  selected : Option Nat
deriving DecidableEq

/-- Modelled from the spec: recording a new graph mutation — apply it,
push the command onto the undo stack, and clear the redo stack entirely
(§3 UndoEngine invariant: no branching history). -/
def recordEdit (c : Cmd) (s : MediatorState) : MediatorState :=
  ⟨applyCmd c s.doc, c :: s.undoStack, [], s.selected⟩

/-- Modelled from the spec: `Mediator::undo` (§4.2) — pop the undo stack,
apply the inverse effect, push onto the redo stack; no-op when empty; the
other stack is not cleared. -/
def undoOp (s : MediatorState) : MediatorState :=
  match s.undoStack with
  | [] => s
  | c :: rest => ⟨unapplyCmd c s.doc, rest, c :: s.redoStack, s.selected⟩

/-- Modelled from the spec: `Mediator::redo` (§4.2) — pop the redo stack,
apply the forward effect, push onto the undo stack; no-op when empty; the
other stack is not cleared. -/
def redoOp (s : MediatorState) : MediatorState :=
  match s.redoStack with
  | [] => s
  | c :: rest => ⟨applyCmd c s.doc, c :: s.undoStack, rest, s.selected⟩

/-- The checked Mediator failures of spec §7. -/
inductive MediatorError where
  | notFound
  | invalidReference
deriving DecidableEq

/-- Modelled from the spec: `Mediator::deleteNode` (§4.2) — `NotFound`
when the id is absent; otherwise cascade removal of every edge touching
the node, clear the selection if it referenced this node, mark the
Document modified, and push an undo command (which, as a new mutation,
clears the redo stack). -/
def deleteNode (id : Nat) (s : MediatorState) : Except MediatorError MediatorState :=
  if id ∈ s.doc.nodes then
    let removed := s.doc.edges.filter (edgeTouches id)
    Except.ok ⟨applyCmd (Cmd.delNode id removed) s.doc,
               Cmd.delNode id removed :: s.undoStack,
               [],
               if s.selected = some id then Option.none else s.selected⟩
  else Except.error MediatorError.notFound

/-- Modelled from the spec: `Mediator::saveMindMap` (§4.2) — requires the
file path to be set; `writeOk` is the external write outcome; on failure
the state is returned unchanged, on success the modified flag is
cleared. -/
def medSaveMindMap (writeOk : Bool) (s : MediatorState) : Bool × MediatorState :=
  match s.doc.filePath with
  | Option.none => (false, s)
  | some _ =>
      if writeOk then
        (true, ⟨⟨s.doc.nodes, s.doc.edges, s.doc.bgColor, s.doc.filePath, false⟩,
                s.undoStack, s.redoStack, s.selected⟩)
      else (false, s)

/-- Modelled from the spec: `Mediator::saveMindMapAs` (§4.2) — on success
set the file path to the given name and clear the modified flag; on
failure the state is returned unchanged. -/
def medSaveMindMapAs (writeOk : Bool) (fileName : List Char) (s : MediatorState) :
    Bool × MediatorState :=
  if writeOk then
    (true, ⟨⟨s.doc.nodes, s.doc.edges, s.doc.bgColor, some fileName, false⟩,
            s.undoStack, s.redoStack, s.selected⟩)
  else (false, s)

/-- What `Mediator::exportToPNG` hands to the external sink: the request
parameters and a read-only view of the graph. -/
structure PngRender where
  path : List Char
  width : Nat
  height : Nat
  transparent : Bool
  renderedNodes : List Nat
deriving DecidableEq

/-- Modelled from the spec: `Mediator::exportToPNG` (§4.2) — a read-only
render of the current graph to an external sink; the Mediator state is
returned untouched. -/
def exportToPNG (path : List Char) (width height : Nat) (transparent : Bool)
    (s : MediatorState) : MediatorState × PngRender :=
  (s, ⟨path, width, height, transparent, s.doc.nodes⟩)

/-! ## Unfolding lemmas for the argument scan -/

theorem argScan_nil (n i : Nat) (lang file : String) :
    argScan [] n i lang file = Except.ok (lang, file) := rfl

theorem argScan_help {a : String} (ha : isHelpTok a) (rest : List String) (n i : Nat)
    (lang file : String) :
    argScan (a :: rest) n i lang file = Except.error CliExit.helpShown := by
  cases rest with
  | nil =>
      show (if isHelpTok a then Except.error CliExit.helpShown
            else if a = "--lang" ∧ i + i < n then Except.ok (lang, file)
            else argScan [] n (i + 1) lang a) = Except.error CliExit.helpShown
      rw [if_pos ha]
  | cons b rest2 =>
      show (if isHelpTok a then Except.error CliExit.helpShown
            else if a = "--lang" ∧ i + i < n then argScan rest2 n (i + 2) b file
            else argScan (b :: rest2) n (i + 1) lang a) = Except.error CliExit.helpShown
      rw [if_pos ha]

theorem argScan_lang_last {a : String} {n i : Nat} (hna : ¬isHelpTok a)
    (hc : a = "--lang" ∧ i + i < n) (lang file : String) :
    argScan [a] n i lang file = Except.ok (lang, file) := by
  show (if isHelpTok a then Except.error CliExit.helpShown
        else if a = "--lang" ∧ i + i < n then Except.ok (lang, file)
        else argScan [] n (i + 1) lang a) = Except.ok (lang, file)
  rw [if_neg hna, if_pos hc]

theorem argScan_lang {a : String} {n i : Nat} (hna : ¬isHelpTok a)
    (hc : a = "--lang" ∧ i + i < n) (b : String) (rest2 : List String) (lang file : String) :
    argScan (a :: b :: rest2) n i lang file = argScan rest2 n (i + 2) b file := by
  show (if isHelpTok a then Except.error CliExit.helpShown
        else if a = "--lang" ∧ i + i < n then argScan rest2 n (i + 2) b file
        else argScan (b :: rest2) n (i + 1) lang a) = argScan rest2 n (i + 2) b file
  rw [if_neg hna, if_pos hc]

theorem argScan_file {a : String} {n i : Nat} (hna : ¬isHelpTok a)
    (hnc : ¬(a = "--lang" ∧ i + i < n)) (rest : List String) (lang file : String) :
    argScan (a :: rest) n i lang file = argScan rest n (i + 1) lang a := by
  cases rest with
  | nil =>
      show (if isHelpTok a then Except.error CliExit.helpShown
            else if a = "--lang" ∧ i + i < n then Except.ok (lang, file)
            else argScan [] n (i + 1) lang a) = argScan [] n (i + 1) lang a
      rw [if_neg hna, if_neg hnc]
  | cons b rest2 =>
      show (if isHelpTok a then Except.error CliExit.helpShown
            else if a = "--lang" ∧ i + i < n then argScan rest2 n (i + 2) b file
            else argScan (b :: rest2) n (i + 1) lang a) = argScan (b :: rest2) n (i + 1) lang a
      rw [if_neg hna, if_neg hnc]

theorem argFileToks_lang {a : String} {n i : Nat} (hna : ¬isHelpTok a)
    (hc : a = "--lang" ∧ i + i < n) (b : String) (rest2 : List String) :
    argFileToks (a :: b :: rest2) n i = argFileToks rest2 n (i + 2) := by
  show (if isHelpTok a then []
        else if a = "--lang" ∧ i + i < n then argFileToks rest2 n (i + 2)
        else a :: argFileToks (b :: rest2) n (i + 1)) = argFileToks rest2 n (i + 2)
  rw [if_neg hna, if_pos hc]

theorem argFileToks_lang_last {a : String} {n i : Nat} (hna : ¬isHelpTok a)
    (hc : a = "--lang" ∧ i + i < n) :
    argFileToks [a] n i = [] := by
  show (if isHelpTok a then []
        else if a = "--lang" ∧ i + i < n then []
        else a :: argFileToks [] n (i + 1)) = []
  rw [if_neg hna, if_pos hc]

theorem argFileToks_file {a : String} {n i : Nat} (hna : ¬isHelpTok a)
    (hnc : ¬(a = "--lang" ∧ i + i < n)) (rest : List String) :
    argFileToks (a :: rest) n i = a :: argFileToks rest n (i + 1) := by
  cases rest with
  | nil =>
      show (if isHelpTok a then []
            else if a = "--lang" ∧ i + i < n then []
            else a :: argFileToks [] n (i + 1)) = a :: argFileToks [] n (i + 1)
      rw [if_neg hna, if_neg hnc]
  | cons b rest2 =>
      show (if isHelpTok a then []
            else if a = "--lang" ∧ i + i < n then argFileToks rest2 n (i + 2)
            else a :: argFileToks (b :: rest2) n (i + 1)) = a :: argFileToks (b :: rest2) n (i + 1)
      rw [if_neg hna, if_neg hnc]

/-! ## Behaviour of the argument scan -/

/-- The scan raises the help exit only if some scanned token is a help
switch. -/
theorem argScan_error_mem (rest : List String) (n i : Nat) (lang file : String) (e : CliExit) :
    argScan rest n i lang file = Except.error e → ∃ a ∈ rest, isHelpTok a := by
  induction rest, n, i, lang, file using argScan.induct with
  | case1 n i lang file =>
      intro h
      exact absurd h (by simp [argScan_nil])
  | case2 a rest n i lang file ha =>
      intro _
      exact ⟨a, List.mem_cons_self a rest, ha⟩
  | case3 a n i lang file hna hc =>
      intro h
      rw [argScan_lang_last hna hc] at h
      cases h
  | case4 a n i lang file hna hc b rest2 ih =>
      intro h
      rw [argScan_lang hna hc] at h
      obtain ⟨x, hx, hhx⟩ := ih h
      exact ⟨x, by simp [hx], hhx⟩
  | case5 a rest n i lang file hna hnc ih =>
      intro h
      rw [argScan_file hna hnc] at h
      obtain ⟨x, hx, hhx⟩ := ih h
      exact ⟨x, by simp [hx], hhx⟩

/-- A scan over tokens free of help switches completes normally. -/
theorem argScan_ok_of_noHelp (rest : List String) (n i : Nat) (lang file : String) :
    (∀ a ∈ rest, ¬isHelpTok a) → ∃ r, argScan rest n i lang file = Except.ok r := by
  induction rest, n, i, lang, file using argScan.induct with
  | case1 n i lang file =>
      intro _
      exact ⟨(lang, file), rfl⟩
  | case2 a rest n i lang file ha =>
      intro hno
      exact absurd ha (hno a (List.mem_cons_self a rest))
  | case3 a n i lang file hna hc =>
      intro _
      exact ⟨(lang, file), argScan_lang_last hna hc lang file⟩
  | case4 a n i lang file hna hc b rest2 ih =>
      intro hno
      rw [argScan_lang hna hc]
      exact ih (fun x hx => hno x (by simp [hx]))
  | case5 a rest n i lang file hna hnc ih =>
      intro hno
      rw [argScan_file hna hnc]
      exact ih (fun x hx => hno x (by simp [hx]))

/-- On a normal completion the resulting mind-map file is the last token
the scan classified as a file token (or the accumulator when there is
none). -/
theorem argScan_last_file (rest : List String) (n i : Nat) (lang file : String) :
    ∀ l f, argScan rest n i lang file = Except.ok (l, f) →
      (argFileToks rest n i = [] → f = file) ∧
      (∀ x, (argFileToks rest n i).getLast? = some x → f = x) := by
  induction rest, n, i, lang, file using argScan.induct with
  | case1 n i lang file =>
      intro l f h
      rw [argScan_nil] at h
      cases h
      exact ⟨fun _ => rfl, fun x hx => by cases hx⟩
  | case2 a rest n i lang file ha =>
      intro l f h
      rw [argScan_help ha] at h
      cases h
  | case3 a n i lang file hna hc =>
      intro l f h
      rw [argScan_lang_last hna hc] at h
      cases h
      rw [argFileToks_lang_last hna hc]
      exact ⟨fun _ => rfl, fun x hx => by cases hx⟩
  | case4 a n i lang file hna hc b rest2 ih =>
      intro l f h
      rw [argScan_lang hna hc] at h
      rw [argFileToks_lang hna hc]
      exact ih l f h
  | case5 a rest n i lang file hna hnc ih =>
      intro l f h
      rw [argScan_file hna hnc] at h
      rw [argFileToks_file hna hnc]
      obtain ⟨h1, h2⟩ := ih l f h
      constructor
      · intro hx
        cases hx
      · intro x hx
        cases htoks : argFileToks rest n (i + 1) with
        | nil =>
            rw [htoks] at hx
            simp at hx
            rw [← hx]
            exact h1 htoks
        | cons y ys =>
            rw [htoks] at hx
            rw [List.getLast?_cons_cons] at hx
            exact h2 x (by rw [htoks]; exact hx)

/-! ## Claim theorems: CLI parsing (C2, C8, C10) -/

/-- C2: the claim says that whenever `--lang` is followed by a language
code, parsing sets the locale to that code and consumes both tokens.  The
source checks `(i + i) < args.size()` instead of `(i + 1) < args.size()`
(application.cpp line 86), so the branch is taken only while the index is
small enough: with argv `["heimer", "a", "b", "--lang", "fi"]` the
`--lang` at index 3 fails the bound `3 + 3 < 5`, both `"--lang"` and
`"fi"` are treated as positional mind-map files, and the language is left
empty — while at index 1 (`["heimer", "--lang", "fi"]`) the option works
as documented by `printHelp`. -/
theorem C2_lang_bound_bug :
    parseArgs ["heimer", "--lang", "fi"] = Except.ok ("fi", "") ∧
    parseArgs ["heimer", "a", "b", "--lang", "fi"] = Except.ok ("", "fi") :=
  ⟨rfl, rfl⟩

/-- C8 counterexample: the claim's "if and only if some argument equals
-h or --help" fails: in `["heimer", "--lang", "-h"]` the token `-h` is
consumed as the value of `--lang`, and parsing completes normally instead
of raising the exit-requesting failure. -/
theorem C8_counterexample :
    ("-h" ∈ (["heimer", "--lang", "-h"] : List String)) ∧
    parseArgs ["heimer", "--lang", "-h"] = Except.ok ("-h", "") :=
  ⟨by simp, rfl⟩

/-- C8 (amended): parsing raises the exit-requesting failure only if some
argument after argv[0] equals "-h" or "--help" (a help switch consumed as
the value of `--lang` does not raise it), and for every argument vector
whose arguments after argv[0] are all different from "-h" and "--help",
parsing completes normally. -/
theorem C8_help_exit_amended (argv : List String) :
    (∀ e, parseArgs argv = Except.error e → ∃ a ∈ argv.drop 1, isHelpTok a) ∧
    ((∀ a ∈ argv.drop 1, ¬isHelpTok a) → ∃ r, parseArgs argv = Except.ok r) := by
  constructor
  · intro e h
    exact argScan_error_mem (argv.drop 1) argv.length 1 "" "" e h
  · intro hno
    exact argScan_ok_of_noHelp (argv.drop 1) argv.length 1 "" "" hno

/-- C8 witness: the amended theorem applied at `["heimer", "-h"]` (raises,
and indeed a help switch occurs after argv[0]) and at
`["heimer", "map.alz"]` (no help switch, completes normally). -/
theorem C8_help_exit_amended_witness :
    (∃ a ∈ (["heimer", "-h"] : List String).drop 1, isHelpTok a) ∧
    (∃ r, parseArgs ["heimer", "map.alz"] = Except.ok r) :=
  ⟨(C8_help_exit_amended ["heimer", "-h"]).1 CliExit.helpShown rfl,
   (C8_help_exit_amended ["heimer", "map.alz"]).2 (by decide)⟩

/-- C10: when the scan classifies at least two tokens as positional
mind-map files and parsing completes normally, the file that will be
opened at startup is the last such token — earlier ones are silently
overwritten by `m_mindMapFile = args[i]`, not rejected. -/
theorem C10_last_positional_wins (argv : List String) (lang file : String)
    (hok : parseArgs argv = Except.ok (lang, file))
    (h2 : 2 ≤ (positionalArgs argv).length) :
    (positionalArgs argv).getLast? = some file := by
  have h := argScan_last_file (argv.drop 1) argv.length 1 "" "" lang file hok
  cases hl : (positionalArgs argv).getLast? with
  | none =>
      have hnil : positionalArgs argv = [] := by
        cases hp : positionalArgs argv with
        | nil => rfl
        | cons y ys =>
            rw [hp] at hl
            simp at hl
      rw [hnil] at h2
      simp at h2
  | some x =>
      have hx := h.2 x hl
      rw [hx]

/-- C10 witness: with `["heimer", "a", "b"]` both `a` and `b` are
positional and the parsed mind-map file is `b`, the last one. -/
theorem C10_last_positional_wins_witness :
    (positionalArgs ["heimer", "a", "b"]).getLast? = some "b" :=
  C10_last_positional_wins ["heimer", "a", "b"] "" "b" rfl (by decide)

/-! ## Helper lemmas on the Driver's effect functions -/

theorem appSaveMindMap_fail {env : DriverEnv} (h : env.mediatorSaveOk = false) :
    appSaveMindMap env =
      ⟨[Action.MindMapSaveFailed], [MsgKind.saveFailedText], Option.none, false,
       Option.none, Option.none⟩ := by
  simp [appSaveMindMap, h]

theorem appSaveMindMap_ok {env : DriverEnv} (h : env.mediatorSaveOk = true) :
    appSaveMindMap env = Effects.emit Action.MindMapSaved := by
  simp [appSaveMindMap, h]

theorem appSaveMindMapAs_canceled {env : DriverEnv} (h : env.saveAsFileName = []) :
    appSaveMindMapAs env = Effects.none := by
  simp [appSaveMindMapAs, h]

theorem appSaveMindMapAs_ok {env : DriverEnv} (h : ¬env.saveAsFileName = [])
    (h2 : env.mediatorSaveAsOk = true) :
    appSaveMindMapAs env =
      ⟨[Action.MindMapSavedAs], [], Option.none, false,
       some (ensureExt env.saveAsFileName), Option.none⟩ := by
  simp [appSaveMindMapAs, h, h2]

theorem appSaveMindMapAs_fail {env : DriverEnv} (h : ¬env.saveAsFileName = [])
    (h2 : env.mediatorSaveAsOk = false) :
    appSaveMindMapAs env =
      ⟨[Action.MindMapSaveAsFailed], [MsgKind.saveAsFailedText], Option.none, false,
       some (ensureExt env.saveAsFileName), Option.none⟩ := by
  simp [appSaveMindMapAs, h, h2]

theorem appOpenMindMap_canceled {env : DriverEnv} (h : env.openFileName = []) :
    appOpenMindMap env = Effects.none := by
  simp [appOpenMindMap, h]

theorem appOpenMindMap_ok {env : DriverEnv} (h : ¬env.openFileName = [])
    (h2 : env.mediatorOpenOk = true) :
    appOpenMindMap env =
      ⟨[Action.MindMapOpened], [], Option.none, false, Option.none, some env.openFileName⟩ := by
  simp [appOpenMindMap, h, h2]

theorem appOpenMindMap_fail {env : DriverEnv} (h : ¬env.openFileName = [])
    (h2 : env.mediatorOpenOk = false) :
    appOpenMindMap env =
      ⟨[], [], Option.none, false, Option.none, some env.openFileName⟩ := by
  simp [appOpenMindMap, h, h2]

theorem appShowNotSavedDialog_one (env : DriverEnv) :
    (appShowNotSavedDialog env).actions.length = 1 := by
  cases h : env.notSavedChoice <;> simp [appShowNotSavedDialog, h, Effects.emit]

/-- The `QApplication::exit` call happens in the Exit branch of
`Application::runState` and nowhere else, always with `EXIT_SUCCESS`. -/
theorem runState_exitCode (env : DriverEnv) (s : State) :
    (runState env s).exitCode = if s = State.Exit then some 0 else Option.none := by
  cases s with
  | SaveMindMap =>
      cases h : env.mediatorSaveOk
      · simp [runState, appSaveMindMap_fail h]
      · simp [runState, appSaveMindMap_ok h, Effects.emit]
  | ShowSaveAsDialog =>
      by_cases h : env.saveAsFileName = []
      · simp [runState, appSaveMindMapAs_canceled h, Effects.none]
      · cases h2 : env.mediatorSaveAsOk
        · simp [runState, appSaveMindMapAs_fail h h2]
        · simp [runState, appSaveMindMapAs_ok h h2]
  | ShowOpenDialog =>
      by_cases h : env.openFileName = []
      · simp [runState, appOpenMindMap_canceled h, Effects.none]
      · cases h2 : env.mediatorOpenOk
        · simp [runState, appOpenMindMap_fail h h2]
        · simp [runState, appOpenMindMap_ok h h2]
  | ShowNotSavedDialog =>
      cases h : env.notSavedChoice <;>
        simp [runState, appShowNotSavedDialog, h, Effects.emit]
  | ShowBackgroundColorDialog =>
      simp [runState, appShowBackgroundColorDialog, Effects.emit]
  | ShowExportToPNGDialog =>
      simp [runState, appShowExportToPNGDialog, Effects.emit]
  | Edit => simp [runState, Effects.none]
  | InitializeNewMindMap => simp [runState, Effects.none]
  | TryCloseWindow => simp [runState]
  | Exit => simp [runState]

/-! ## Claim theorems: the Driver (C1, C4, C5, C9) -/

/-- C1 counterexample: canceling the save-as file dialog (empty file
name) or the open file dialog leaves `Application::saveMindMapAs` /
`Application::openMindMap` without any `emit actionTriggered(...)`: no
canceled/resolution Action is submitted for these two dialog states,
contradicting "exactly one resulting Action" for every State. -/
theorem C1_counterexample :
    (runState (⟨[], [], false, NotSavedChoice.cancel, true, true, true⟩ : DriverEnv)
        State.ShowSaveAsDialog).actions = [] ∧
    (runState (⟨[], [], false, NotSavedChoice.cancel, true, true, true⟩ : DriverEnv)
        State.ShowOpenDialog).actions = [] :=
  ⟨rfl, rfl⟩

/-- C1 (amended): the Driver submits exactly one resulting Action for the
SaveMindMap, ShowBackgroundColorDialog, ShowExportToPNGDialog and
ShowNotSavedDialog states — for the latter three even on cancellation,
with an explicit resolution Action, and NotSavedDialogCanceled,
BackgroundColorChanged and ExportedToPNG all return the machine to Edit —
but for ShowSaveAsDialog and ShowOpenDialog a canceled file dialog (and a
failed open) submits no Action at all, and the non-dialog states Edit,
InitializeNewMindMap, TryCloseWindow and Exit submit no Action from
`runState`. -/
theorem C1_amended (env : DriverEnv) :
    (runState env State.SaveMindMap).actions.length = 1 ∧
    (runState env State.ShowBackgroundColorDialog).actions = [Action.BackgroundColorChanged] ∧
    (runState env State.ShowExportToPNGDialog).actions = [Action.ExportedToPNG] ∧
    (runState env State.ShowNotSavedDialog).actions.length = 1 ∧
    ((runState env State.ShowSaveAsDialog).actions = [] ↔ env.saveAsFileName = []) ∧
    ((runState env State.ShowOpenDialog).actions = [] ↔
      (env.openFileName = [] ∨ env.mediatorOpenOk = false)) ∧
    (runState env State.Edit).actions = [] ∧
    (runState env State.InitializeNewMindMap).actions = [] ∧
    (runState env State.TryCloseWindow).actions = [] ∧
    (runState env State.Exit).actions = [] ∧
    (∀ (sm : SMState) (g : Guards),
      transition sm Action.NotSavedDialogCanceled g = ⟨State.Edit, Option.none⟩ ∧
      transition sm Action.BackgroundColorChanged g = ⟨State.Edit, Option.none⟩ ∧
      transition sm Action.ExportedToPNG g = ⟨State.Edit, Option.none⟩) := by
  refine ⟨?_, rfl, rfl, appShowNotSavedDialog_one env, ?_, ?_, rfl, rfl, rfl, rfl,
    fun sm g => ⟨rfl, rfl, rfl⟩⟩
  · cases h : env.mediatorSaveOk
    · simp [runState, appSaveMindMap_fail h]
    · simp [runState, appSaveMindMap_ok h, Effects.emit]
  · by_cases h : env.saveAsFileName = []
    · simp [runState, appSaveMindMapAs_canceled h, Effects.none, h]
    · cases h2 : env.mediatorSaveAsOk
      · simp [runState, appSaveMindMapAs_fail h h2, h]
      · simp [runState, appSaveMindMapAs_ok h h2, h]
  · by_cases h : env.openFileName = []
    · simp [runState, appOpenMindMap_canceled h, Effects.none, h]
    · cases h2 : env.mediatorOpenOk
      · simp [runState, appOpenMindMap_fail h h2, h]
      · simp [runState, appOpenMindMap_ok h h2, h, h2]

/-- C1 witness: the amended theorem at a concrete environment — the
export dialog state emits exactly its resolution action. -/
theorem C1_amended_witness :
    (runState (⟨[], [], false, NotSavedChoice.cancel, true, true, true⟩ : DriverEnv)
        State.ShowExportToPNGDialog).actions = [Action.ExportedToPNG] :=
  (C1_amended ⟨[], [], false, NotSavedChoice.cancel, true, true, true⟩).2.2.1

/-- C4: the only `QApplication::exit` call of the Driver is in the Exit
branch of `runState`, with `EXIT_SUCCESS` (0), and the only exception
argument parsing can raise is the deliberate help exit, which requires a
`-h`/`--help` token after argv[0]; no other state or error path ends the
process. -/
theorem C4_no_termination_except_exit :
    (∀ (env : DriverEnv) (s : State),
      ¬(runState env s).exitCode = Option.none ↔ s = State.Exit) ∧
    (∀ (env : DriverEnv) (s : State),
      (runState env s).exitCode = Option.none ∨ (runState env s).exitCode = some 0) ∧
    (∀ (argv : List String) (e : CliExit),
      parseArgs argv = Except.error e → ∃ a ∈ argv.drop 1, isHelpTok a) := by
  refine ⟨fun env s => ?_, fun env s => ?_, fun argv e h => ?_⟩
  · rw [runState_exitCode]
    by_cases h : s = State.Exit <;> simp [h]
  · rw [runState_exitCode]
    by_cases h : s = State.Exit <;> simp [h]
  · exact argScan_error_mem (argv.drop 1) argv.length 1 "" "" e h

/-- C4 witness: the Exit state does exit (with status 0), and the help
exit at `["heimer", "--help"]` indeed stems from a help token after
argv[0]. -/
theorem C4_no_termination_except_exit_witness :
    ¬(runState (⟨[], [], false, NotSavedChoice.cancel, true, true, true⟩ : DriverEnv)
        State.Exit).exitCode = Option.none ∧
    (∃ a ∈ (["heimer", "--help"] : List String).drop 1, isHelpTok a) :=
  ⟨(C4_no_termination_except_exit.1 ⟨[], [], false, NotSavedChoice.cancel, true, true, true⟩
      State.Exit).mpr rfl,
   C4_no_termination_except_exit.2.2 ["heimer", "--help"] CliExit.helpShown rfl⟩

/-- C5: the export effect resolves unconditionally — for every
environment (exported or canceled alike) the Driver emits exactly the
ExportedToPNG action after the dialog closes — and `Mediator::exportToPNG`
returns the Mediator state (Document, undo and redo stacks, selection)
untouched. -/
theorem C5_export_unconditional :
    (∀ env : DriverEnv,
      runState env State.ShowExportToPNGDialog = Effects.emit Action.ExportedToPNG) ∧
    (∀ (path : List Char) (w h : Nat) (t : Bool) (s : MediatorState),
      (exportToPNG path w h t s).1 = s) :=
  ⟨fun _ => rfl, fun _ _ _ _ _ => rfl⟩

/-- Appending the missing extension really produces a name carrying the
extension as a suffix. -/
theorem ensureExt_endsWith (s : List Char) :
    qEndsWith (ensureExt s) FILE_EXTENSION = true := by
  unfold ensureExt
  by_cases h : qEndsWith s FILE_EXTENSION = true
  · simp [h]
  · rw [if_neg (fun hh => h hh)]
    simp [qEndsWith, List.isSuffixOf_iff_suffix]

/-- C9: every file name the Driver hands to `Mediator::saveMindMapAs`
ends with the fixed file extension — the dialog result is extended by
`FILE_EXTENSION` exactly when it does not already end with it. -/
theorem C9_saveAs_extension (env : DriverEnv) (fn : List Char)
    (h : (runState env State.ShowSaveAsDialog).saveAsArg = some fn) :
    qEndsWith fn FILE_EXTENSION = true := by
  by_cases he : env.saveAsFileName = []
  · rw [show runState env State.ShowSaveAsDialog = appSaveMindMapAs env from rfl,
        appSaveMindMapAs_canceled he] at h
    cases h
  · cases hok : env.mediatorSaveAsOk
    · rw [show runState env State.ShowSaveAsDialog = appSaveMindMapAs env from rfl,
          appSaveMindMapAs_fail he hok] at h
      cases h
      exact ensureExt_endsWith env.saveAsFileName
    · rw [show runState env State.ShowSaveAsDialog = appSaveMindMapAs env from rfl,
          appSaveMindMapAs_ok he hok] at h
      cases h
      exact ensureExt_endsWith env.saveAsFileName

/-- C9 witness: a save-as dialog result `map` (no extension) reaches
`Mediator::saveMindMapAs` as `map.alz`, which ends with the extension. -/
theorem C9_saveAs_extension_witness :
    qEndsWith ['m', 'a', 'p', '.', 'a', 'l', 'z'] FILE_EXTENSION = true :=
  C9_saveAs_extension
    ⟨[], ['m', 'a', 'p'], false, NotSavedChoice.cancel, true, true, true⟩
    ['m', 'a', 'p', '.', 'a', 'l', 'z'] rfl

/-! ## Claim theorems: save failure handling (C3) -/

/-- C3: when the Mediator reports save/save-as failure the Driver shows a
message box and emits exactly MindMapSaveFailed / MindMapSaveAsFailed
without exiting; on success it emits MindMapSaved / MindMapSavedAs; the
workflow machine maps both failure actions to Edit; and a failed
`Mediator::saveMindMap` / `Mediator::saveMindMapAs` returns the Mediator
state (hence the Document) unchanged. -/
theorem C3_save_failure_recovery :
    (∀ env : DriverEnv, env.mediatorSaveOk = false →
      (runState env State.SaveMindMap).actions = [Action.MindMapSaveFailed] ∧
      (runState env State.SaveMindMap).messages = [MsgKind.saveFailedText] ∧
      (runState env State.SaveMindMap).exitCode = Option.none) ∧
    (∀ env : DriverEnv, env.mediatorSaveOk = true →
      (runState env State.SaveMindMap).actions = [Action.MindMapSaved] ∧
      (runState env State.SaveMindMap).exitCode = Option.none) ∧
    (∀ env : DriverEnv, ¬env.saveAsFileName = [] → env.mediatorSaveAsOk = false →
      (runState env State.ShowSaveAsDialog).actions = [Action.MindMapSaveAsFailed] ∧
      (runState env State.ShowSaveAsDialog).messages = [MsgKind.saveAsFailedText] ∧
      (runState env State.ShowSaveAsDialog).exitCode = Option.none) ∧
    (∀ env : DriverEnv, ¬env.saveAsFileName = [] → env.mediatorSaveAsOk = true →
      (runState env State.ShowSaveAsDialog).actions = [Action.MindMapSavedAs]) ∧
    (∀ (sm : SMState) (g : Guards),
      transition sm Action.MindMapSaveFailed g = ⟨State.Edit, Option.none⟩ ∧
      transition sm Action.MindMapSaveAsFailed g = ⟨State.Edit, Option.none⟩) ∧
    (∀ (w : Bool) (s t : MediatorState), medSaveMindMap w s = (false, t) → t = s) ∧
    (∀ (w : Bool) (fn : List Char) (s t : MediatorState),
      medSaveMindMapAs w fn s = (false, t) → t = s) := by
  refine ⟨fun env h => ?_, fun env h => ?_, fun env he h => ?_, fun env he h => ?_,
    fun sm g => ⟨rfl, rfl⟩, fun w s t h => ?_, fun w fn s t h => ?_⟩
  · rw [show runState env State.SaveMindMap = appSaveMindMap env from rfl, appSaveMindMap_fail h]
    exact ⟨rfl, rfl, rfl⟩
  · rw [show runState env State.SaveMindMap = appSaveMindMap env from rfl, appSaveMindMap_ok h]
    exact ⟨rfl, rfl⟩
  · rw [show runState env State.ShowSaveAsDialog = appSaveMindMapAs env from rfl,
        appSaveMindMapAs_fail he h]
    exact ⟨rfl, rfl, rfl⟩
  · rw [show runState env State.ShowSaveAsDialog = appSaveMindMapAs env from rfl,
        appSaveMindMapAs_ok he h]
  · unfold medSaveMindMap at h
    cases hp : s.doc.filePath with
    | none =>
        rw [hp] at h
        cases h
        rfl
    | some p =>
        rw [hp] at h
        cases hw : w
        · rw [hw] at h
          simp at h
          exact h.symm
        · rw [hw] at h
          simp at h
  · unfold medSaveMindMapAs at h
    cases hw : w
    · rw [hw] at h
      simp at h
      exact h.symm
    · rw [hw] at h
      simp at h

/-- C3 witness: a failing save at a concrete environment emits exactly
MindMapSaveFailed with a message and no exit, and a failing
`Mediator::saveMindMap` on a concrete state leaves it unchanged. -/
theorem C3_save_failure_recovery_witness :
    ((runState (⟨[], [], false, NotSavedChoice.cancel, false, false, false⟩ : DriverEnv)
        State.SaveMindMap).actions = [Action.MindMapSaveFailed] ∧
     (runState (⟨[], [], false, NotSavedChoice.cancel, false, false, false⟩ : DriverEnv)
        State.SaveMindMap).messages = [MsgKind.saveFailedText] ∧
     (runState (⟨[], [], false, NotSavedChoice.cancel, false, false, false⟩ : DriverEnv)
        State.SaveMindMap).exitCode = Option.none) ∧
    ((⟨⟨[1], [], 0, Option.none, true⟩, [], [], Option.none⟩ : MediatorState) =
      ⟨⟨[1], [], 0, Option.none, true⟩, [], [], Option.none⟩) :=
  ⟨C3_save_failure_recovery.1 ⟨[], [], false, NotSavedChoice.cancel, false, false, false⟩ rfl,
   C3_save_failure_recovery.2.2.2.2.2.1 false
     ⟨⟨[1], [], 0, Option.none, true⟩, [], [], Option.none⟩
     ⟨⟨[1], [], 0, Option.none, true⟩, [], [], Option.none⟩ rfl⟩

/-! ## Claim theorems: undo/redo and deleteNode (C6, C7) -/

/-- A command is coherently recorded: a delete command's stored cascade
list holds only edges touching the deleted node (which is how
`deleteNode` records it); add and background commands carry no side
condition. -/
def wfCmd : Cmd → Bool
  | Cmd.delNode id removedEdges => removedEdges.all (edgeTouches id)
  | _ => true

/-- C6: undo followed by redo is a round trip — after recording any
single coherent edit on any Document, `undo()` then `redo()` restores the
Mediator state (Document included) to what it was when the edit had just
been applied, i.e. to the state immediately before the undo of that
edit. -/
theorem C6_undo_redo_roundtrip (c : Cmd) (s : MediatorState) (h : wfCmd c = true) :
    redoOp (undoOp (recordEdit c s)) = recordEdit c s := by
  obtain ⟨d, us, rs, sel⟩ := s
  cases c with
  | addNode id src =>
      cases src with
      | none =>
          simp [recordEdit, undoOp, redoOp, applyCmd, unapplyCmd, List.erase_cons_head]
      | some v =>
          simp [recordEdit, undoOp, redoOp, applyCmd, unapplyCmd, List.erase_cons_head]
  | delNode id es =>
      have hall : ∀ e ∈ es, edgeTouches id e = true := by
        simpa [wfCmd, List.all_eq_true] using h
      have h1 : es.filter (fun e => !edgeTouches id e) = [] := by
        rw [List.filter_eq_nil_iff]
        intro e he
        simp [hall e he]
      simp [recordEdit, undoOp, redoOp, applyCmd, unapplyCmd, List.erase_cons_head,
        List.filter_append, h1, List.filter_filter]
  | setBg o nc =>
      simp [recordEdit, undoOp, redoOp, applyCmd, unapplyCmd]

/-- C6 witness: the round trip at a concrete delete edit on a concrete
two-node document. -/
theorem C6_undo_redo_roundtrip_witness :
    redoOp (undoOp (recordEdit (Cmd.delNode 1 [(1, 2)])
        (⟨⟨[1, 2], [(1, 2)], 0, Option.none, false⟩, [], [], Option.none⟩ : MediatorState))) =
      recordEdit (Cmd.delNode 1 [(1, 2)])
        (⟨⟨[1, 2], [(1, 2)], 0, Option.none, false⟩, [], [], Option.none⟩ : MediatorState) :=
  C6_undo_redo_roundtrip (Cmd.delNode 1 [(1, 2)])
    ⟨⟨[1, 2], [(1, 2)], 0, Option.none, false⟩, [], [], Option.none⟩ (by decide)

/-- C7: `deleteNode` on an absent id fails with the checked NotFound
result; on a present id it succeeds, leaves no edge touching the node,
clears the selection if it referenced this node, marks the Document
modified, and pushes one undo command (clearing the redo stack as every
new mutation does). -/
theorem C7_deleteNode_contract (id : Nat) (s : MediatorState) :
    (id ∉ s.doc.nodes → deleteNode id s = Except.error MediatorError.notFound) ∧
    (id ∈ s.doc.nodes → ∃ t, deleteNode id s = Except.ok t ∧
      (∀ e ∈ t.doc.edges, edgeTouches id e = false) ∧
      (s.selected = some id → t.selected = Option.none) ∧
      t.doc.isModified = true ∧
      t.undoStack.length = s.undoStack.length + 1 ∧
      t.redoStack = []) := by
  constructor
  · intro h
    unfold deleteNode
    rw [if_neg h]
  · intro h
    refine ⟨⟨applyCmd (Cmd.delNode id (s.doc.edges.filter (edgeTouches id))) s.doc,
             Cmd.delNode id (s.doc.edges.filter (edgeTouches id)) :: s.undoStack,
             [],
             if s.selected = some id then Option.none else s.selected⟩,
            ?_, ?_, ?_, rfl, rfl, rfl⟩
    · unfold deleteNode
      rw [if_pos h]
    · intro e he
      simp only [applyCmd] at he
      rw [List.mem_filter] at he
      simpa using he.2
    · intro hsel
      rw [if_pos hsel]

/-- C7 witness: deleting id 5 from a document whose only node is 1 fails
with NotFound; deleting id 1 from a document with a self-edge on 1 and
selection on 1 succeeds with the claimed postconditions. -/
theorem C7_deleteNode_contract_witness :
    deleteNode 5 (⟨⟨[1], [], 0, Option.none, false⟩, [], [], Option.none⟩ : MediatorState) =
      Except.error MediatorError.notFound ∧
    (∃ t, deleteNode 1
          (⟨⟨[1], [(1, 1)], 0, Option.none, false⟩, [], [], some 1⟩ : MediatorState) =
        Except.ok t ∧
      (∀ e ∈ t.doc.edges, edgeTouches 1 e = false) ∧
      ((⟨⟨[1], [(1, 1)], 0, Option.none, false⟩, [], [], some 1⟩ : MediatorState).selected =
          some 1 → t.selected = Option.none) ∧
      t.doc.isModified = true ∧
      t.undoStack.length =
        (⟨⟨[1], [(1, 1)], 0, Option.none, false⟩, [], [], some 1⟩ : MediatorState).undoStack.length
          + 1 ∧
      t.redoStack = []) :=
  ⟨(C7_deleteNode_contract 5 ⟨⟨[1], [], 0, Option.none, false⟩, [], [], Option.none⟩).1
      (by decide),
   (C7_deleteNode_contract 1 ⟨⟨[1], [(1, 1)], 0, Option.none, false⟩, [], [], some 1⟩).2
      (by decide)⟩

end Heimer
